import Mathlib

/-!
Verification of the configuration-resolution, fingerprint-cache and
version-bump core of the `app-build` CI action.

The TypeScript sources are shallowly embedded:

* JavaScript objects produced by `JSON.parse` are modelled as ordered
  association lists (`List (String × Json)`), preserving key-insertion
  order exactly as V8 does for string keys; lookups are first-match.
* JSON numbers are modelled as `Int` — every build number / version
  component handled by this code is integral, and the embedding's
  `jsNumber` mirrors JavaScript `Number()` coercion on such values
  (`null → 0`, booleans → 0/1, integer-literal strings, `"" → 0`,
  `[] → 0`, non-coercible values → `none`, the NaN / non-finite case).
* Functions that `throw` are modelled with `Except String`.
* File-system access is factored out: `parseConfigFile` takes the
  (optional) parsed JSON content of the config file, and
  `restoreFingerprintCache` takes the cache-store `restoreCache`
  primitive as an explicit oracle argument.
-/

-- ===========================================================================
-- JSON values (result of JSON.parse), with JS-style helpers
-- ===========================================================================

inductive Json where
  | null
  | bool (b : Bool)
  | num (n : Int)
  | str (s : String)
  | arr (xs : List Json)
  | obj (fields : List (String × Json))

/-- First-match lookup in an object's field list (JS property read). -/
def lookupAssoc {α : Type} : List (String × α) → String → Option α
  | [], _ => none
  | (k, v) :: rest, key => if k = key then some v else lookupAssoc rest key

/-- JS property read `j[key]`: `undefined` (`none`) on non-objects. -/
def Json.lookupField : Json → String → Option Json
  | .obj fields, key => lookupAssoc fields key
  | _, _ => none

/-- Read a chain of properties; `none` when any step is absent. -/
def lookupPath : Json → List String → Option Json
  | j, [] => some j
  | j, k :: ks =>
    match j.lookupField k with
    | some v => lookupPath v ks
    | none => none

/-- JS assignment `fields[key] = v`: existing keys keep their position,
new keys are appended. -/
def setAssoc {α : Type} : List (String × α) → String → α → List (String × α)
  | [], key, v => [(key, v)]
  | (k, w) :: rest, key, v =>
    if k = key then (key, v) :: rest else (k, w) :: setAssoc rest key v

-- ===========================================================================
-- JS number / string coercions used by the version-bump engine
-- ===========================================================================

/-- Decimal digits of a natural number, most significant first; the
first argument is structural fuel (any value above the number works,
see `natDigitsAux_spec`). -/
def natDigitsAux : Nat → Nat → List Char → List Char
  | 0, _, acc => acc
  | fuel + 1, n, acc =>
    if n < 10 then Char.ofNat (48 + n) :: acc
    else natDigitsAux fuel (n / 10) (Char.ofNat (48 + n % 10) :: acc)

def natDigits (n : Nat) : List Char :=
  natDigitsAux (n + 1) n []

/-- Model of JavaScript `String(n)` on an integral number. -/
def jsIntToString (i : Int) : String :=
  if i < 0 then String.mk ('-' :: natDigits i.natAbs)
  else String.mk (natDigits i.toNat)

/-- Value of a non-empty all-digit character list. -/
def digitsVal (cs : List Char) : Nat :=
  cs.foldl (fun a c => a * 10 + (c.toNat - 48)) 0

/-- Parse a non-empty decimal digit string. -/
def parseDigits (cs : List Char) : Option Nat :=
  if cs ≠ [] ∧ cs.all Char.isDigit then some (digitsVal cs) else none

/-- Model of JavaScript `Number(s)` on a string, restricted to the
integral literals this code manipulates: surrounding whitespace is
ignored, the empty (or all-whitespace) string coerces to `0`, an
optionally signed decimal integer literal coerces to its value, and
everything else (`"abc"`, `"Infinity"`, …) is NaN / non-finite
(`none`). -/
def jsStringToNumber (s : String) : Option Int :=
  let t := ((s.data.dropWhile Char.isWhitespace).reverse.dropWhile Char.isWhitespace).reverse
  match t with
  | [] => some 0
  | c :: rest =>
    if c = '-' then (parseDigits rest).map (fun n => -(n : Int))
    else if c = '+' then (parseDigits rest).map (fun n => (n : Int))
    else (parseDigits (c :: rest)).map (fun n => (n : Int))

mutual

/-- Model of JavaScript `Number(v)` on a JSON value, `none` encoding the
NaN / non-finite outcomes that make the bump code throw. -/
def jsNumber : Json → Option Int
  | .null => some 0
  | .bool b => some (if b then 1 else 0)
  | .num n => some n
  | .str s => jsStringToNumber s
  | .arr xs => jsNumberOfArray xs
  | .obj _ => none

/-- `Number([])` is `0`; `Number([x])` coerces via the element's string
form; longer arrays are NaN. -/
def jsNumberOfArray : List Json → Option Int
  | [] => some 0
  | [x] => jsNumberOfElem x
  | _ => none

/-- Array elements stringify before coercion, so booleans become NaN. -/
def jsNumberOfElem : Json → Option Int
  | .null => some 0
  | .bool _ => none
  | .num n => some n
  | .str s => jsStringToNumber s
  | .arr xs => jsNumberOfArray xs
  | .obj _ => none

end

mutual

/-- `Array.prototype.toString`: elements joined with commas, with
`null` printing as the empty string. -/
def jsArrJoin : List Json → String
  | [] => ""
  | [x] => jsElemString x
  | x :: rest => jsElemString x ++ "," ++ jsArrJoin rest

def jsElemString : Json → String
  | .null => ""
  | .bool b => if b then "true" else "false"
  | .num n => jsIntToString n
  | .str s => s
  | .arr xs => jsArrJoin xs
  | .obj _ => "[object Object]"

end

/-- Model of JS template-literal stringification of a JSON value. -/
def jsToString : Json → String
  | .null => "null"
  | .bool b => if b then "true" else "false"
  | .num n => jsIntToString n
  | .str s => s
  | .arr xs => jsArrJoin xs
  | .obj _ => "[object Object]"

-- ===========================================================================
-- src/config/defaults.ts
-- ===========================================================================

/-- Default build profile name when none specified in action inputs. -/
def DEFAULT_PROFILE : String := "production"

/-- Default Node.js version for the runner. -/
def DEFAULT_NODE_VERSION : String := "20"

/-- Default Fastlane version. -/
def DEFAULT_FASTLANE_VERSION : String := "latest"

/-- Default Xcode build configuration for iOS builds. -/
def DEFAULT_IOS_BUILD_CONFIGURATION : String := "Release"

/-- Whether to produce an AAB (true) or APK (false) by default. -/
def DEFAULT_ANDROID_AAB : Bool := true

/-- Default source file for version information. -/
def DEFAULT_VERSION_SOURCE : String := "app.json"

-- ===========================================================================
-- src/config/schema.ts — data model (z.infer types)
-- ===========================================================================

inductive Platform where
  | ios
  | android
deriving DecidableEq, Repr

def Platform.toStr : Platform → String
  | .ios => "ios"
  | .android => "android"

inductive ExportMethod where
  | development
  | adHoc
  | appStore
  | enterprise
deriving DecidableEq, Repr

/-- Default Xcode export method for iOS builds (`'app-store'`). -/
def DEFAULT_IOS_EXPORT_METHOD : ExportMethod := .appStore

inductive BuildType where
  | debug
  | release
deriving DecidableEq, Repr

/-- Default Gradle build type for Android builds (`'release'`). -/
def DEFAULT_ANDROID_BUILD_TYPE : BuildType := .release

structure IosBuildConfig where
  scheme : String
  buildConfiguration : String
  exportMethod : ExportMethod
deriving DecidableEq, Repr

structure AndroidBuildConfig where
  buildType : BuildType
  aab : Option Bool
deriving DecidableEq, Repr

/-- A build profile as the zod schema actually admits it: both platform
sections are optional and no cross-field refinement is present in the
source (the schema comment announces "at least one platform must be
configured", but `BuildProfileSchema` carries no such check). -/
structure BuildProfile where
  ios : Option IosBuildConfig
  android : Option AndroidBuildConfig
deriving DecidableEq, Repr

inductive SubmitTrack where
  | internal
  | alpha
  | beta
  | production
deriving DecidableEq, Repr

structure SubmitIos where
  ascAppId : String
deriving DecidableEq, Repr

structure SubmitAndroid where
  packageName : String
  track : SubmitTrack
deriving DecidableEq, Repr

structure SubmitConfig where
  ios : Option SubmitIos
  android : Option SubmitAndroid
deriving DecidableEq, Repr

inductive MatchType where
  | appstore
  | adhoc
  | development
deriving DecidableEq, Repr

inductive MatchStorage where
  | git
  | s3
  | googleCloud
deriving DecidableEq, Repr

/-- `IosSigningSchema = z.union([manual, match])`. -/
inductive IosSigning where
  | manualMethod
  | matchMethod (type : Option MatchType) (storage : Option MatchStorage)
      (gitUrl : Option String) (readonly : Option Bool)
deriving DecidableEq, Repr

inductive AndroidSigning where
  | manualMethod
deriving DecidableEq, Repr

structure SigningConfig where
  ios : Option IosSigning
  android : Option AndroidSigning
deriving DecidableEq, Repr

inductive UpdatesStorageType where
  | s3
  | gcs
  | custom
deriving DecidableEq, Repr

structure UpdatesStorage where
  type : UpdatesStorageType
  bucket : Option String
  region : Option String
  keyPfx : Option String
  uploadCommand : Option String
deriving DecidableEq, Repr

structure UpdatesConfig where
  enabled : Bool
  url : Option String
  storage : Option UpdatesStorage
deriving DecidableEq, Repr

inductive VersionStrategy where
  | appJson
  | gitTag
  | gitCommitCount
  | timestamp
deriving DecidableEq, Repr

structure VersionConfig where
  autoIncrement : Bool
  source : Option String
  strategy : Option VersionStrategy
  gitTagPattern : Option String
deriving DecidableEq, Repr

/-- `AppBuildConfig`: the schema makes `build` required, but
`parseConfigFile` returns `{} as AppBuildConfig` when the file does not
exist, so at runtime every section may be absent. -/
structure AppBuildConfig where
  build : Option (List (String × BuildProfile))
  submit : Option SubmitConfig
  signing : Option SigningConfig
  updates : Option UpdatesConfig
  version : Option VersionConfig
deriving DecidableEq, Repr

/-- The `{}` object cast to `AppBuildConfig` by `parseConfigFile` when
the config file does not exist. -/
def emptyAppBuildConfig : AppBuildConfig :=
  { build := none, submit := none, signing := none, updates := none, version := none }

-- ===========================================================================
-- src/config/schema.ts — zod validation (AppBuildConfigSchema.safeParse)
-- ===========================================================================

/-- A zod issue: field path plus message. -/
def Issue : Type := List String × String

def joinSep (sep : String) : List String → String
  | [] => ""
  | [s] => s
  | s :: rest => s ++ sep ++ joinSep sep rest

def jsonTypeName : Json → String
  | .null => "null"
  | .bool _ => "boolean"
  | .num _ => "number"
  | .str _ => "string"
  | .arr _ => "array"
  | .obj _ => "object"

/-- Prefix every issue's path with one extra key. -/
def shiftIssues (k : String) (issues : List Issue) : List Issue :=
  issues.map (fun i => (k :: i.1, i.2))

/-- Combine two field results, collecting issues from both (zod reports
every violated field in one pass). -/
def zip2 {α β : Type} :
    Except (List Issue) α → Except (List Issue) β → Except (List Issue) (α × β)
  | .ok a, .ok b => .ok (a, b)
  | .error e1, .error e2 => .error (e1 ++ e2)
  | .error e1, .ok _ => .error e1
  | .ok _, .error e2 => .error e2

/-- A required object field (absence is a "Required" issue). -/
def reqField {α : Type} (fields : List (String × Json)) (k : String)
    (p : Json → Except (List Issue) α) : Except (List Issue) α :=
  match lookupAssoc fields k with
  | none => .error [([k], "Required")]
  | some v =>
    match p v with
    | .ok a => .ok a
    | .error issues => .error (shiftIssues k issues)

/-- An `.optional()` object field (absence yields `none`). -/
def optField {α : Type} (fields : List (String × Json)) (k : String)
    (p : Json → Except (List Issue) α) : Except (List Issue) (Option α) :=
  match lookupAssoc fields k with
  | none => .ok none
  | some v =>
    match p v with
    | .ok a => .ok (some a)
    | .error issues => .error (shiftIssues k issues)

def parseStringSchema : Json → Except (List Issue) String
  | .str s => .ok s
  | j => .error [([], "Expected string, received " ++ jsonTypeName j)]

def parseBooleanSchema : Json → Except (List Issue) Bool
  | .bool b => .ok b
  | j => .error [([], "Expected boolean, received " ++ jsonTypeName j)]

def parseExportMethod : Json → Except (List Issue) ExportMethod
  | .str "development" => .ok .development
  | .str "ad-hoc" => .ok .adHoc
  | .str "app-store" => .ok .appStore
  | .str "enterprise" => .ok .enterprise
  | _ => .error [([], "Invalid enum value")]

def parseBuildTypeSchema : Json → Except (List Issue) BuildType
  | .str "debug" => .ok .debug
  | .str "release" => .ok .release
  | _ => .error [([], "Invalid enum value")]

def parseIosBuildConfig : Json → Except (List Issue) IosBuildConfig
  | .obj fields =>
    (match zip2 (reqField fields "scheme" parseStringSchema)
        (zip2 (reqField fields "buildConfiguration" parseStringSchema)
          (reqField fields "exportMethod" parseExportMethod)) with
    | .ok (s, bc, em) => .ok { scheme := s, buildConfiguration := bc, exportMethod := em }
    | .error issues => .error issues)
  | j => .error [([], "Expected object, received " ++ jsonTypeName j)]

def parseAndroidBuildConfig : Json → Except (List Issue) AndroidBuildConfig
  | .obj fields =>
    (match zip2 (reqField fields "buildType" parseBuildTypeSchema)
        (optField fields "aab" parseBooleanSchema) with
    | .ok (bt, aab) => .ok { buildType := bt, aab := aab }
    | .error issues => .error issues)
  | j => .error [([], "Expected object, received " ++ jsonTypeName j)]

/-- `BuildProfileSchema`: both platform sections optional — as in the
source, NO at-least-one-platform refinement is applied. -/
def parseBuildProfile : Json → Except (List Issue) BuildProfile
  | .obj fields =>
    (match zip2 (optField fields "ios" parseIosBuildConfig)
        (optField fields "android" parseAndroidBuildConfig) with
    | .ok (i, a) => .ok { ios := i, android := a }
    | .error issues => .error issues)
  | j => .error [([], "Expected object, received " ++ jsonTypeName j)]

def parseBuildRecordEntries : List (String × Json) → Except (List Issue) (List (String × BuildProfile))
  | [] => .ok []
  | (k, v) :: rest =>
    (match zip2
        (match parseBuildProfile v with
        | .ok p => .ok p
        | .error issues => .error (shiftIssues k issues))
        (parseBuildRecordEntries rest) with
    | .ok (p, ps) => .ok ((k, p) :: ps)
    | .error issues => .error issues)

/-- `z.record(z.string(), BuildProfileSchema)`. -/
def parseBuildRecord : Json → Except (List Issue) (List (String × BuildProfile))
  | .obj fields => parseBuildRecordEntries fields
  | j => .error [([], "Expected record, received " ++ jsonTypeName j)]

def parseSubmitIos : Json → Except (List Issue) SubmitIos
  | .obj fields =>
    (match reqField fields "ascAppId" parseStringSchema with
    | .ok id => .ok { ascAppId := id }
    | .error issues => .error issues)
  | j => .error [([], "Expected object, received " ++ jsonTypeName j)]

def parseSubmitTrack : Json → Except (List Issue) SubmitTrack
  | .str "internal" => .ok .internal
  | .str "alpha" => .ok .alpha
  | .str "beta" => .ok .beta
  | .str "production" => .ok .production
  | _ => .error [([], "Invalid enum value")]

def parseSubmitAndroid : Json → Except (List Issue) SubmitAndroid
  | .obj fields =>
    (match zip2 (reqField fields "packageName" parseStringSchema)
        (reqField fields "track" parseSubmitTrack) with
    | .ok (p, t) => .ok { packageName := p, track := t }
    | .error issues => .error issues)
  | j => .error [([], "Expected object, received " ++ jsonTypeName j)]

def parseSubmitConfig : Json → Except (List Issue) SubmitConfig
  | .obj fields =>
    (match zip2 (optField fields "ios" parseSubmitIos)
        (optField fields "android" parseSubmitAndroid) with
    | .ok (i, a) => .ok { ios := i, android := a }
    | .error issues => .error issues)
  | j => .error [([], "Expected object, received " ++ jsonTypeName j)]

def parseMatchType : Json → Except (List Issue) MatchType
  | .str "appstore" => .ok .appstore
  | .str "adhoc" => .ok .adhoc
  | .str "development" => .ok .development
  | _ => .error [([], "Invalid enum value")]

def parseMatchStorage : Json → Except (List Issue) MatchStorage
  | .str "git" => .ok .git
  | .str "s3" => .ok .s3
  | .str "google_cloud" => .ok .googleCloud
  | _ => .error [([], "Invalid enum value")]

def parseLiteral (lit : String) : Json → Except (List Issue) Unit
  | .str s => if s = lit then .ok () else .error [([], "Invalid literal value")]
  | _ => .error [([], "Invalid literal value")]

/-- `IosSigningManualSchema`. -/
def parseIosSigningManual : Json → Except (List Issue) IosSigning
  | .obj fields =>
    (match reqField fields "method" (parseLiteral "manual") with
    | .ok _ => .ok .manualMethod
    | .error issues => .error issues)
  | j => .error [([], "Expected object, received " ++ jsonTypeName j)]

/-- `IosSigningMatchSchema`. -/
def parseIosSigningMatch : Json → Except (List Issue) IosSigning
  | .obj fields =>
    (match zip2 (reqField fields "method" (parseLiteral "match"))
        (zip2 (optField fields "type" parseMatchType)
          (zip2 (optField fields "storage" parseMatchStorage)
            (zip2 (optField fields "gitUrl" parseStringSchema)
              (optField fields "readonly" parseBooleanSchema)))) with
    | .ok (_, t, s, g, r) => .ok (.matchMethod t s g r)
    | .error issues => .error issues)
  | j => .error [([], "Expected object, received " ++ jsonTypeName j)]

/-- `z.union([IosSigningManualSchema, IosSigningMatchSchema])`: options
tried in order, first success wins. -/
def parseIosSigning (j : Json) : Except (List Issue) IosSigning :=
  match parseIosSigningManual j with
  | .ok s => .ok s
  | .error _ =>
    match parseIosSigningMatch j with
    | .ok s => .ok s
    | .error _ => .error [([], "Invalid input")]

def parseAndroidSigning : Json → Except (List Issue) AndroidSigning
  | .obj fields =>
    (match reqField fields "method" (parseLiteral "manual") with
    | .ok _ => .ok .manualMethod
    | .error issues => .error issues)
  | j => .error [([], "Expected object, received " ++ jsonTypeName j)]

def parseSigningConfig : Json → Except (List Issue) SigningConfig
  | .obj fields =>
    (match zip2 (optField fields "ios" parseIosSigning)
        (optField fields "android" parseAndroidSigning) with
    | .ok (i, a) => .ok { ios := i, android := a }
    | .error issues => .error issues)
  | j => .error [([], "Expected object, received " ++ jsonTypeName j)]

def parseUpdatesStorageType : Json → Except (List Issue) UpdatesStorageType
  | .str "s3" => .ok .s3
  | .str "gcs" => .ok .gcs
  | .str "custom" => .ok .custom
  | _ => .error [([], "Invalid enum value")]

def parseUpdatesStorage : Json → Except (List Issue) UpdatesStorage
  | .obj fields =>
    (match zip2 (reqField fields "type" parseUpdatesStorageType)
        (zip2 (optField fields "bucket" parseStringSchema)
          (zip2 (optField fields "region" parseStringSchema)
            (zip2 (optField fields "prefix" parseStringSchema)
              (optField fields "uploadCommand" parseStringSchema)))) with
    | .ok (t, b, r, p, u) =>
      .ok { type := t, bucket := b, region := r, keyPfx := p, uploadCommand := u }
    | .error issues => .error issues)
  | j => .error [([], "Expected object, received " ++ jsonTypeName j)]

def parseUpdatesConfig : Json → Except (List Issue) UpdatesConfig
  | .obj fields =>
    (match zip2 (reqField fields "enabled" parseBooleanSchema)
        (zip2 (optField fields "url" parseStringSchema)
          (optField fields "storage" parseUpdatesStorage)) with
    | .ok (e, u, s) => .ok { enabled := e, url := u, storage := s }
    | .error issues => .error issues)
  | j => .error [([], "Expected object, received " ++ jsonTypeName j)]

def parseVersionStrategy : Json → Except (List Issue) VersionStrategy
  | .str "app-json" => .ok .appJson
  | .str "git-tag" => .ok .gitTag
  | .str "git-commit-count" => .ok .gitCommitCount
  | .str "timestamp" => .ok .timestamp
  | _ => .error [([], "Invalid enum value")]

def parseVersionConfig : Json → Except (List Issue) VersionConfig
  | .obj fields =>
    (match zip2 (reqField fields "autoIncrement" parseBooleanSchema)
        (zip2 (optField fields "source" parseStringSchema)
          (zip2 (optField fields "strategy" parseVersionStrategy)
            (optField fields "gitTagPattern" parseStringSchema))) with
    | .ok (a, s, st, g) =>
      .ok { autoIncrement := a, source := s, strategy := st, gitTagPattern := g }
    | .error issues => .error issues)
  | j => .error [([], "Expected object, received " ++ jsonTypeName j)]

/-- `AppBuildConfigSchema.safeParse`: `build` required, all other
sections optional. -/
def parseAppBuildConfigJson : Json → Except (List Issue) AppBuildConfig
  | .obj fields =>
    (match zip2 (reqField fields "build" parseBuildRecord)
        (zip2 (optField fields "submit" parseSubmitConfig)
          (zip2 (optField fields "signing" parseSigningConfig)
            (zip2 (optField fields "updates" parseUpdatesConfig)
              (optField fields "version" parseVersionConfig)))) with
    | .ok (b, su, si, up, v) =>
      .ok { build := some b, submit := su, signing := si, updates := up, version := v }
    | .error issues => .error issues)
  | j => .error [([], "Expected object, received " ++ jsonTypeName j)]

-- ===========================================================================
-- src/config/parser.ts — parseConfigFile
-- ===========================================================================

def formatIssue (i : Issue) : String :=
  "  - " ++ (if i.1.isEmpty then "(root)" else joinSep "." i.1) ++ ": " ++ i.2

/-- `parseConfigFile`, with the file system factored out: the argument
is `none` when `fs.existsSync` is false, and `some j` when the file
exists and `JSON.parse` yielded `j` (read and JSON-syntax failures
throw their own distinct errors before validation and are outside the
scope of the verified claims). -/
def parseConfigFile (configPath : String) (file : Option Json) : Except String AppBuildConfig :=
  match file with
  | none => .ok emptyAppBuildConfig
  | some j =>
    match parseAppBuildConfigJson j with
    | .ok config => .ok config
    | .error issues =>
      .error ("Invalid config in \"" ++ configPath ++ "\":\n"
        ++ joinSep "\n" (issues.map formatIssue))

-- ===========================================================================
-- src/config/parser.ts — getProfileConfig
-- ===========================================================================

/-- The return value of `getProfileConfig`
(`IosBuildConfig | AndroidBuildConfig`), tagged by platform. -/
inductive PlatformBuildConfig where
  | ios (c : IosBuildConfig)
  | android (c : AndroidBuildConfig)
deriving DecidableEq, Repr

def BuildProfile.platformField (prof : BuildProfile) : Platform → Option PlatformBuildConfig
  | .ios => prof.ios.map .ios
  | .android => prof.android.map .android

def getProfileConfig (config : AppBuildConfig) (profileName : String)
    (platform : Platform) : Except String (Option PlatformBuildConfig) :=
  match config.build with
  | none => .ok none
  | some build =>
    match lookupAssoc build profileName with
    | none =>
      .error ("Build profile \"" ++ profileName ++ "\" not found. Available profiles: "
        ++ joinSep ", " (build.map Prod.fst))
    | some prof =>
      match prof.platformField platform with
      | none =>
        let configured := joinSep ", "
          ((if prof.ios.isSome then ["ios"] else [])
            ++ (if prof.android.isSome then ["android"] else []))
        .error ("Platform \"" ++ platform.toStr ++ "\" is not configured in profile \""
          ++ profileName ++ "\". Configured platforms: "
          ++ (if configured.isEmpty then "none" else configured))
      | some platformConfig => .ok (some platformConfig)

-- ===========================================================================
-- src/config/parser.ts — ActionInputs / ResolvedConfig / mergeActionInputs
-- ===========================================================================

/-- Credential inputs, passed through verbatim to `ResolvedConfig`. -/
structure Credentials where
  iosCertificateP12 : Option String
  iosCertificatePassword : Option String
  iosProvisioningProfile : Option String
  iosExtensionProfiles : Option String
  matchPassword : Option String
  matchGitPrivateKey : Option String
  ascApiKeyId : Option String
  ascApiIssuerId : Option String
  ascApiKeyP8 : Option String
  androidKeystore : Option String
  androidKeystorePassword : Option String
  androidKeyAlias : Option String
  androidKeyPassword : Option String
  googlePlayServiceAccount : Option String
deriving DecidableEq, Repr

/-- `ActionInputs` — mirrors action.yml. Required string inputs may
still be the empty string (falsy in the `||` defaulting below). -/
structure ActionInputs where
  platform : Platform
  profile : String
  submit : Bool
  ota : Bool
  versionBump : Bool
  cache : Bool
  fingerprint : Bool
  skipPrebuild : Bool
  prebuildClean : Bool
  nodeVersion : String
  fastlaneVersion : String
  xcodeVersion : Option String
  versionStrategy : Option String
  versionGitTagPattern : Option String
  iosScheme : Option String
  iosBuildConfiguration : Option String
  credentials : Credentials
deriving DecidableEq, Repr

/-- The `resolved.ios` object. Its TypeScript type is `IosBuildConfig`,
but the defaulting branch writes `scheme: undefined as unknown as
string`, so the scheme really is optional at runtime. -/
structure ResolvedIos where
  scheme : Option String
  buildConfiguration : String
  exportMethod : ExportMethod
deriving DecidableEq, Repr

structure ResolvedConfig where
  platform : Platform
  profile : String
  ios : Option ResolvedIos
  android : Option AndroidBuildConfig
  submit : Bool
  ota : Bool
  versionBump : Bool
  cache : Bool
  fingerprint : Bool
  skipPrebuild : Bool
  prebuildClean : Bool
  nodeVersion : String
  fastlaneVersion : String
  xcodeVersion : Option String
  submitConfig : Option SubmitConfig
  signingConfig : Option SigningConfig
  updatesConfig : Option UpdatesConfig
  versionConfig : Option VersionConfig
  versionStrategy : Option String
  versionGitTagPattern : Option String
  credentials : Credentials
deriving DecidableEq, Repr

/-- JS truthiness of an optional string input (`undefined` and `""` are
falsy). -/
def strTruthy : Option String → Bool
  | some s => !s.isEmpty
  | none => false

def mergeActionInputs (config : AppBuildConfig) (inputs : ActionInputs) :
    Except String ResolvedConfig :=
  let profileName := if inputs.profile.isEmpty then DEFAULT_PROFILE else inputs.profile
  let platform := inputs.platform
  match getProfileConfig config profileName platform with
  | .error e => .error e
  | .ok platformConfig =>
    let resolved : ResolvedConfig :=
      { platform := platform
        profile := profileName
        ios := none
        android := none
        submit := inputs.submit
        ota := inputs.ota
        versionBump := inputs.versionBump
        cache := inputs.cache
        fingerprint := inputs.fingerprint
        skipPrebuild := inputs.skipPrebuild
        prebuildClean := inputs.prebuildClean
        nodeVersion := if inputs.nodeVersion.isEmpty then DEFAULT_NODE_VERSION else inputs.nodeVersion
        fastlaneVersion := if inputs.fastlaneVersion.isEmpty then DEFAULT_FASTLANE_VERSION else inputs.fastlaneVersion
        xcodeVersion := inputs.xcodeVersion
        submitConfig := config.submit
        signingConfig := config.signing
        updatesConfig := config.updates
        versionConfig := config.version.map
          (fun v => { v with source := some (v.source.getD DEFAULT_VERSION_SOURCE) })
        versionStrategy := inputs.versionStrategy
        versionGitTagPattern := inputs.versionGitTagPattern
        credentials := inputs.credentials }
    match platform with
    | .ios =>
      let fromConfig : ResolvedIos :=
        match platformConfig with
        | some (.ios c) =>
          { scheme := some c.scheme
            buildConfiguration := c.buildConfiguration
            exportMethod := c.exportMethod }
        | _ =>
          { scheme := none
            buildConfiguration := DEFAULT_IOS_BUILD_CONFIGURATION
            exportMethod := DEFAULT_IOS_EXPORT_METHOD }
      let withScheme :=
        if strTruthy inputs.iosScheme then { fromConfig with scheme := inputs.iosScheme }
        else fromConfig
      let withBuildConfiguration :=
        match inputs.iosBuildConfiguration with
        | some s => if s.isEmpty then withScheme else { withScheme with buildConfiguration := s }
        | none => withScheme
      .ok { resolved with ios := some withBuildConfiguration }
    | .android =>
      let androidResolved : AndroidBuildConfig :=
        match platformConfig with
        | some (.android c) => { buildType := c.buildType, aab := c.aab }
        | _ => { buildType := DEFAULT_ANDROID_BUILD_TYPE, aab := some DEFAULT_ANDROID_AAB }
      .ok { resolved with android := some androidResolved }

-- ===========================================================================
-- src/version/bump.ts — the app-json strategy (file → file)
-- ===========================================================================

structure BumpResult where
  previousValue : Int
  newValue : Int
  field : String
  version : Option String
deriving DecidableEq, Repr

/-- Dotted path split (`field.split('.')`) for the four field constants
used by the bump engine; written over the character list so that it
evaluates in the kernel. -/
def splitDotsAux : List Char → List Char → List String
  | [], acc => [String.mk acc.reverse]
  | '.' :: rest, acc => String.mk acc.reverse :: splitDotsAux rest []
  | c :: rest, acc => splitDotsAux rest (c :: acc)

def splitDots (s : String) : List String :=
  splitDotsAux s.data []

/-- `setNestedValue(obj, dottedPath, value)`: walks the dotted path,
replacing any missing / null / non-object intermediate with a fresh
`{}`, then assigns the final key. Functional rendering of the in-place
mutation; a non-object root is returned unchanged (callers always pass
the parsed config object). -/
def setNestedKeys : Json → List String → Json → Json
  | j, [], _ => j
  | j, [k], v =>
    match j with
    | .obj fields => .obj (setAssoc fields k v)
    | _ => j
  | j, k :: rest, v =>
    match j with
    | .obj fields =>
      let child :=
        match lookupAssoc fields k with
        | some (.obj cf) => Json.obj cf
        | _ => .obj []
      .obj (setAssoc fields k (setNestedKeys child rest v))
    | _ => j

def setNestedValue (j : Json) (dottedPath : String) (v : Json) : Json :=
  setNestedKeys j (splitDots dottedPath) v

/-- The `??`-nullish read of `json.expo` (`json.expo ?? {}`). -/
def nullishExpo (json : Json) : Json :=
  match json.lookupField "expo" with
  | some .null => .obj []
  | some e => e
  | none => .obj []

/-- `bumpFromAppJson`, on the parsed content of the config file
(`resolveExpoConfig` file handling factored out). Returns the new file
content together with the `BumpResult`. -/
def bumpFromAppJson (platform : Platform) (json : Json) :
    Except String (Json × BumpResult) :=
  let expo := nullishExpo json
  let fieldRaw : String × Option Json :=
    match platform with
    | .ios =>
      match (match expo.lookupField "ios" with
             | some o => o.lookupField "buildNumber"
             | none => none) with
      | some v => ("expo.ios.buildNumber", some v)
      | none =>
        match expo.lookupField "buildNumber" with
        | some v => ("expo.buildNumber", some v)
        | none => ("expo.ios.buildNumber", none)
    | .android =>
      match (match expo.lookupField "android" with
             | some o => o.lookupField "versionCode"
             | none => none) with
      | some v => ("expo.android.versionCode", some v)
      | none =>
        match expo.lookupField "versionCode" with
        | some v => ("expo.versionCode", some v)
        | none => ("expo.android.versionCode", none)
  let field := fieldRaw.1
  let previousValueE : Except String Int :=
    match fieldRaw.2 with
    | none => .ok 0
    | some raw =>
      match jsNumber raw with
      | none => .error (field ++ " has non-numeric value \"" ++ jsToString raw ++ "\"")
      | some parsed => .ok parsed
  match previousValueE with
  | .error e => .error e
  | .ok previousValue =>
    let newValue := previousValue + 1
    let written : Json := match platform with
      | .ios => .str (jsIntToString newValue)
      | .android => .num newValue
    .ok (setNestedValue json field written,
      { previousValue := previousValue, newValue := newValue, field := field, version := none })

-- ===========================================================================
-- src/version/bump.ts — the git-tag strategy's version computation
-- ===========================================================================

structure SemVer where
  major : Nat
  minor : Nat
  patch : Nat
deriving DecidableEq, Repr

/-- The new-version computation of `bumpFromGitTag`, applied to the
previous version parsed from the latest matching tag (`{0,0,0}` when no
tag was found or the tag had no semver triple):
`major: prev.major || 1`, `minor: prev.minor`,
`patch: prev.patch + (prev.major === 0 ? 0 : 1)`, then the
all-zero triple is forced to `1.0.0`. -/
def gitTagNewVersion (prev : SemVer) : SemVer :=
  let newVersion : SemVer :=
    { major := if prev.major = 0 then 1 else prev.major
      minor := prev.minor
      patch := prev.patch + (if prev.major = 0 then 0 else 1) }
  if prev.major = 0 ∧ prev.minor = 0 ∧ prev.patch = 0 then
    { major := 1, minor := 0, patch := 0 }
  else newVersion

/-- `major * 10000 + minor * 100 + patch` packing of a version triple
into a single build number. -/
def packedBuildNumber (v : SemVer) : Nat :=
  v.major * 10000 + v.minor * 100 + v.patch

-- ===========================================================================
-- src/fingerprint/cache.ts — restoreFingerprintCache
-- ===========================================================================

/-- Outcome of one `cache.restoreCache(paths, key)` call: resolves with
the hit key (or `undefined` on a miss), or rejects. -/
inductive RestoreOutcome where
  | ok (hit : Option String)
  | err (msg : String)
deriving DecidableEq, Repr

def cacheKey (platform : String) (hash : String) : String :=
  "native-build-" ++ platform ++ "-" ++ hash

/-- `restoreFingerprintCache`, with the cache store passed as an
explicit oracle (`restoreCache`) and the `os.tmpdir()`-derived marker
directory as a parameter. The `try`/`catch` around the restore call
maps a rejection to `false`; the truthiness test `if (hit)` maps a
resolved value to `true` exactly when it is a non-empty string. -/
def restoreFingerprintCache
    (restoreCache : List String → String → RestoreOutcome)
    (markerDir : String) (platform : String) (hash : String) : Bool :=
  let key := cacheKey platform hash
  match restoreCache [markerDir] key with
  | .ok (some hit) => if hit.isEmpty then false else true
  | .ok none => false
  | .err _ => false

-- ===========================================================================
-- Lemmas: association lists and nested assignment
-- ===========================================================================

/-- Two key paths diverge when they differ at some common index (so
neither denotes the other or a sub-object of the other). -/
def pathsDiverge : List String → List String → Bool
  | a :: as, b :: bs => if a = b then pathsDiverge as bs else true
  | _, _ => false

theorem lookupAssoc_setAssoc {α : Type} (fields : List (String × α)) (k key : String) (v : α) :
    lookupAssoc (setAssoc fields k v) key = if key = k then some v else lookupAssoc fields key := by
  induction fields with
  | nil =>
    simp only [setAssoc, lookupAssoc]
    by_cases h : k = key
    · subst h; simp
    · rw [if_neg h, if_neg (Ne.symm h)]
  | cons hd tl ih =>
    obtain ⟨k', w⟩ := hd
    simp only [setAssoc]
    by_cases h : k' = k
    · subst h
      simp only [if_pos rfl, lookupAssoc]
      by_cases h2 : k' = key
      · subst h2; simp
      · rw [if_neg h2, if_neg (Ne.symm h2), if_neg h2]
    · simp only [if_neg h, lookupAssoc]
      by_cases h2 : k' = key
      · subst h2; simp [h]
      · rw [if_neg h2, if_neg h2, ih]

theorem lookupPath_setNestedKeys_self (path : List String) :
    ∀ (j v w : Json), path ≠ [] → lookupPath j path = some w →
      lookupPath (setNestedKeys j path v) path = some v := by
  induction path with
  | nil => intro j v w h; exact absurd rfl h
  | cons k ks ih =>
    intro j v w _ hlook
    cases j with
    | obj fields =>
      simp only [lookupPath, Json.lookupField] at hlook
      cases hc : lookupAssoc fields k with
      | none => rw [hc] at hlook; simp at hlook
      | some c =>
        rw [hc] at hlook
        cases ks with
        | nil =>
          simp [setNestedKeys, lookupPath, Json.lookupField, lookupAssoc_setAssoc]
        | cons k2 ks' =>
          cases c with
          | obj cf =>
            have hrec := ih (Json.obj cf) v w (by simp) hlook
            have hset : setNestedKeys (Json.obj fields) (k :: k2 :: ks') v =
                Json.obj (setAssoc fields k (setNestedKeys (Json.obj cf) (k2 :: ks') v)) := by
              simp [setNestedKeys, hc]
            rw [hset]
            simp only [lookupPath, Json.lookupField, lookupAssoc_setAssoc]
            simpa using hrec
          | null => simp [lookupPath, Json.lookupField] at hlook
          | bool b => simp [lookupPath, Json.lookupField] at hlook
          | num n => simp [lookupPath, Json.lookupField] at hlook
          | str s => simp [lookupPath, Json.lookupField] at hlook
          | arr xs => simp [lookupPath, Json.lookupField] at hlook
    | null => simp [lookupPath, Json.lookupField] at hlook
    | bool b => simp [lookupPath, Json.lookupField] at hlook
    | num n => simp [lookupPath, Json.lookupField] at hlook
    | str s => simp [lookupPath, Json.lookupField] at hlook
    | arr xs => simp [lookupPath, Json.lookupField] at hlook

theorem lookupPath_setNestedKeys_diverge (q : List String) :
    ∀ (path : List String) (j v w : Json), pathsDiverge q path = true →
      lookupPath j path = some w →
      lookupPath (setNestedKeys j path v) q = lookupPath j q := by
  induction q with
  | nil => intro path j v w hdiv; simp [pathsDiverge] at hdiv
  | cons a as ih =>
    intro path j v w hdiv hlook
    cases path with
    | nil => simp [pathsDiverge] at hdiv
    | cons b bs =>
      cases j with
      | obj fields =>
        simp only [lookupPath, Json.lookupField] at hlook
        cases hc : lookupAssoc fields b with
        | none => rw [hc] at hlook; simp at hlook
        | some c =>
          rw [hc] at hlook
          by_cases hab : a = b
          · subst hab
            simp only [pathsDiverge, if_pos rfl] at hdiv
            cases bs with
            | nil => simp [pathsDiverge] at hdiv
            | cons b2 bs' =>
              cases c with
              | obj cf =>
                have hrec := ih (b2 :: bs') (Json.obj cf) v w hdiv hlook
                have hset : setNestedKeys (Json.obj fields) (a :: b2 :: bs') v =
                    Json.obj (setAssoc fields a (setNestedKeys (Json.obj cf) (b2 :: bs') v)) := by
                  simp [setNestedKeys, hc]
                rw [hset]
                simp only [lookupPath, Json.lookupField, lookupAssoc_setAssoc, hc]
                simpa using hrec
              | null => simp [lookupPath, Json.lookupField] at hlook
              | bool b => simp [lookupPath, Json.lookupField] at hlook
              | num n => simp [lookupPath, Json.lookupField] at hlook
              | str s => simp [lookupPath, Json.lookupField] at hlook
              | arr xs => simp [lookupPath, Json.lookupField] at hlook
          · cases bs with
            | nil =>
              simp [setNestedKeys, lookupPath, Json.lookupField,
                lookupAssoc_setAssoc, hab]
            | cons b2 bs' =>
              have hset : setNestedKeys (Json.obj fields) (b :: b2 :: bs') v =
                  Json.obj (setAssoc fields b (setNestedKeys c (b2 :: bs') v)) := by
                cases c with
                | obj cf => simp [setNestedKeys, hc]
                | null => simp [lookupPath, Json.lookupField] at hlook
                | bool b => simp [lookupPath, Json.lookupField] at hlook
                | num n => simp [lookupPath, Json.lookupField] at hlook
                | str s => simp [lookupPath, Json.lookupField] at hlook
                | arr xs => simp [lookupPath, Json.lookupField] at hlook
              rw [hset]
              simp [lookupPath, Json.lookupField, lookupAssoc_setAssoc, hab, hc]
      | null => simp [lookupPath, Json.lookupField] at hlook
      | bool b => simp [lookupPath, Json.lookupField] at hlook
      | num n => simp [lookupPath, Json.lookupField] at hlook
      | str s => simp [lookupPath, Json.lookupField] at hlook
      | arr xs => simp [lookupPath, Json.lookupField] at hlook

-- ===========================================================================
-- Lemmas: decimal printing / JS numeric coercion round-trip
-- ===========================================================================

theorem digitChar_props (d : Nat) (hd : d < 10) :
    (Char.ofNat (48 + d)).isDigit = true ∧ (Char.ofNat (48 + d)).isWhitespace = false ∧
      Char.ofNat (48 + d) ≠ '-' ∧ Char.ofNat (48 + d) ≠ '+' ∧
      (Char.ofNat (48 + d)).toNat = 48 + d := by
  interval_cases d <;> exact ⟨by decide, by decide, by decide, by decide, by decide⟩

theorem natDigitsAux_spec (n : Nat) : ∀ (fuel : Nat) (acc : List Char), n < fuel →
    natDigitsAux fuel n acc = natDigits n ++ acc := by
  induction n using Nat.strong_induction_on with
  | _ n ih =>
    intro fuel acc hf
    match fuel, hf with
    | f + 1, hf =>
      by_cases h10 : n < 10
      · simp [natDigitsAux, natDigits, h10]
      · have hpos : 0 < n := by omega
        have hdiv : n / 10 < n := Nat.div_lt_self hpos (by decide)
        have hdivf : n / 10 < f := by omega
        have lhs : natDigitsAux (f + 1) n acc =
            natDigits (n / 10) ++ (Char.ofNat (48 + n % 10) :: acc) := by
          rw [natDigitsAux, if_neg h10, ih (n / 10) hdiv f _ hdivf]
        have rhs : natDigits n = natDigits (n / 10) ++ [Char.ofNat (48 + n % 10)] := by
          rw [natDigits, natDigitsAux, if_neg h10, ih (n / 10) hdiv n _ (by omega)]
        rw [lhs, rhs, List.append_assoc]
        rfl

theorem natDigits_step (n : Nat) (h10 : ¬ n < 10) :
    natDigits n = natDigits (n / 10) ++ [Char.ofNat (48 + n % 10)] := by
  have hpos : 0 < n := by omega
  have hdiv : n / 10 < n := Nat.div_lt_self hpos (by decide)
  rw [natDigits, natDigitsAux, if_neg h10, natDigitsAux_spec (n / 10) n _ (by omega)]

theorem natDigits_spec (n : Nat) :
    natDigits n ≠ [] ∧ (∀ c ∈ natDigits n, ∃ d, d < 10 ∧ c = Char.ofNat (48 + d)) ∧
      digitsVal (natDigits n) = n := by
  induction n using Nat.strong_induction_on with
  | _ n ih =>
    by_cases h10 : n < 10
    · have hd : natDigits n = [Char.ofNat (48 + n)] := by
        rw [natDigits, natDigitsAux, if_pos h10]
      refine ⟨by simp [hd], ?_, ?_⟩
      · intro c hc
        rw [hd] at hc
        simp at hc
        exact ⟨n, h10, hc⟩
      · rw [hd]
        simp only [digitsVal, List.foldl]
        have := (digitChar_props n h10).2.2.2.2
        omega
    · have hpos : 0 < n := by omega
      have hdiv : n / 10 < n := Nat.div_lt_self hpos (by decide)
      obtain ⟨hne, hdig, hval⟩ := ih (n / 10) hdiv
      have hstep := natDigits_step n h10
      have hmod : n % 10 < 10 := Nat.mod_lt _ (by decide)
      refine ⟨by simp [hstep], ?_, ?_⟩
      · intro c hc
        rw [hstep] at hc
        rcases List.mem_append.mp hc with h | h
        · exact hdig c h
        · simp at h
          exact ⟨n % 10, hmod, h⟩
      · rw [hstep]
        simp only [digitsVal, List.foldl_append, List.foldl]
        simp only [digitsVal] at hval
        rw [hval]
        have := (digitChar_props (n % 10) hmod).2.2.2.2
        have hdm := Nat.div_add_mod n 10
        omega

theorem parseDigits_natDigits (n : Nat) : parseDigits (natDigits n) = some n := by
  obtain ⟨hne, hdig, hval⟩ := natDigits_spec n
  have hall : (natDigits n).all Char.isDigit = true := by
    rw [List.all_eq_true]
    intro c hc
    obtain ⟨d, hd, rfl⟩ := hdig c hc
    exact (digitChar_props d hd).1
  rw [parseDigits, if_pos ⟨hne, hall⟩, hval]

theorem dropWhile_eq_self_of_not {p : Char → Bool} (l : List Char)
    (h : ∀ c ∈ l, p c = false) : l.dropWhile p = l := by
  cases l with
  | nil => rfl
  | cons a as => simp [List.dropWhile, h a (by simp)]

theorem trim_eq_self (l : List Char) (h : ∀ c ∈ l, c.isWhitespace = false) :
    ((l.dropWhile Char.isWhitespace).reverse.dropWhile Char.isWhitespace).reverse = l := by
  rw [dropWhile_eq_self_of_not l h,
    dropWhile_eq_self_of_not l.reverse (by intro c hc; exact h c (by simpa using hc)),
    List.reverse_reverse]

theorem natDigits_not_ws (n : Nat) : ∀ c ∈ natDigits n, c.isWhitespace = false := by
  intro c hc
  obtain ⟨d, hd, rfl⟩ := (natDigits_spec n).2.1 c hc
  exact (digitChar_props d hd).2.1

theorem jsStringToNumber_natDigits (n : Nat) :
    jsStringToNumber (String.mk (natDigits n)) = some (n : Int) := by
  have hdata : (String.mk (natDigits n)).data = natDigits n := rfl
  rw [jsStringToNumber]
  simp only [hdata, trim_eq_self (natDigits n) (natDigits_not_ws n)]
  cases hcons : natDigits n with
  | nil => exact absurd hcons (natDigits_spec n).1
  | cons c rest =>
    obtain ⟨d, hd, hc⟩ := (natDigits_spec n).2.1 c (by rw [hcons]; simp)
    have hminus : ¬ c = '-' := by rw [hc]; exact (digitChar_props d hd).2.2.1
    have hplus : ¬ c = '+' := by rw [hc]; exact (digitChar_props d hd).2.2.2.1
    simp only [if_neg hminus, if_neg hplus, ← hcons, parseDigits_natDigits]
    rfl

theorem jsNumber_jsIntToString (i : Int) :
    jsNumber (.str (jsIntToString i)) = some i := by
  rw [jsNumber]
  by_cases hneg : i < 0
  · rw [jsIntToString, if_pos hneg, jsStringToNumber]
    have hdata : (String.mk ('-' :: natDigits i.natAbs)).data = '-' :: natDigits i.natAbs := rfl
    have hnows : ∀ c ∈ '-' :: natDigits i.natAbs, c.isWhitespace = false := by
      intro c hc
      rcases List.mem_cons.mp hc with h | h
      · rw [h]; decide
      · exact natDigits_not_ws _ c h
    simp only [hdata, trim_eq_self _ hnows, if_pos rfl, parseDigits_natDigits]
    have hval : -((i.natAbs : Nat) : Int) = i := by omega
    calc (some i.natAbs).map (fun n => -(n : Int)) = some (-((i.natAbs : Nat) : Int)) := rfl
      _ = some i := congrArg some hval
  · rw [jsIntToString, if_neg hneg, jsStringToNumber_natDigits]
    exact congrArg some (show ((i.toNat : Nat) : Int) = i by omega)

-- ===========================================================================
-- Lemmas: bumpFromAppJson behaviour
-- ===========================================================================

theorem bumpFromAppJson_ios_of_present (json v : Json) (n : Int)
    (h : lookupPath json ["expo", "ios", "buildNumber"] = some v)
    (hn : jsNumber v = some n) :
    bumpFromAppJson .ios json =
      .ok (setNestedKeys json ["expo", "ios", "buildNumber"] (.str (jsIntToString (n + 1))),
        { previousValue := n, newValue := n + 1, field := "expo.ios.buildNumber",
          version := none }) := by
  cases hj1 : json.lookupField "expo" with
  | none => simp [lookupPath, hj1] at h
  | some e =>
    simp only [lookupPath, hj1] at h
    cases e with
    | obj ef =>
      cases hj2 : lookupAssoc ef "ios" with
      | none => simp [lookupPath, Json.lookupField, hj2] at h
      | some io =>
        simp only [lookupPath, Json.lookupField, hj2] at h
        cases io with
        | obj iof =>
          cases hj3 : lookupAssoc iof "buildNumber" with
          | none => simp [lookupPath, Json.lookupField, hj3] at h
          | some v' =>
            simp only [lookupPath, Json.lookupField, hj3] at h
            have hv : v' = v := by simpa using h
            have H2 : (Json.obj ef).lookupField "ios" = some (Json.obj iof) := hj2
            have H3 : (Json.obj iof).lookupField "buildNumber" = some v := hv ▸ hj3
            simp only [bumpFromAppJson, nullishExpo, hj1, H2, H3, hn, setNestedValue]
            rfl
        | null => simp [lookupPath, Json.lookupField] at h
        | bool b => simp [lookupPath, Json.lookupField] at h
        | num m => simp [lookupPath, Json.lookupField] at h
        | str s => simp [lookupPath, Json.lookupField] at h
        | arr xs => simp [lookupPath, Json.lookupField] at h
    | null => simp [lookupPath, Json.lookupField] at h
    | bool b => simp [lookupPath, Json.lookupField] at h
    | num m => simp [lookupPath, Json.lookupField] at h
    | str s => simp [lookupPath, Json.lookupField] at h
    | arr xs => simp [lookupPath, Json.lookupField] at h

theorem bumpFromAppJson_android_of_present (json v : Json) (n : Int)
    (h : lookupPath json ["expo", "android", "versionCode"] = some v)
    (hn : jsNumber v = some n) :
    bumpFromAppJson .android json =
      .ok (setNestedKeys json ["expo", "android", "versionCode"] (.num (n + 1)),
        { previousValue := n, newValue := n + 1, field := "expo.android.versionCode",
          version := none }) := by
  cases hj1 : json.lookupField "expo" with
  | none => simp [lookupPath, hj1] at h
  | some e =>
    simp only [lookupPath, hj1] at h
    cases e with
    | obj ef =>
      cases hj2 : lookupAssoc ef "android" with
      | none => simp [lookupPath, Json.lookupField, hj2] at h
      | some io =>
        simp only [lookupPath, Json.lookupField, hj2] at h
        cases io with
        | obj iof =>
          cases hj3 : lookupAssoc iof "versionCode" with
          | none => simp [lookupPath, Json.lookupField, hj3] at h
          | some v' =>
            simp only [lookupPath, Json.lookupField, hj3] at h
            have hv : v' = v := by simpa using h
            have H2 : (Json.obj ef).lookupField "android" = some (Json.obj iof) := hj2
            have H3 : (Json.obj iof).lookupField "versionCode" = some v := hv ▸ hj3
            simp only [bumpFromAppJson, nullishExpo, hj1, H2, H3, hn, setNestedValue]
            rfl
        | null => simp [lookupPath, Json.lookupField] at h
        | bool b => simp [lookupPath, Json.lookupField] at h
        | num m => simp [lookupPath, Json.lookupField] at h
        | str s => simp [lookupPath, Json.lookupField] at h
        | arr xs => simp [lookupPath, Json.lookupField] at h
    | null => simp [lookupPath, Json.lookupField] at h
    | bool b => simp [lookupPath, Json.lookupField] at h
    | num m => simp [lookupPath, Json.lookupField] at h
    | str s => simp [lookupPath, Json.lookupField] at h
    | arr xs => simp [lookupPath, Json.lookupField] at h

theorem bumpFromAppJson_ios_of_nan (json v : Json)
    (h : lookupPath json ["expo", "ios", "buildNumber"] = some v)
    (hn : jsNumber v = none) :
    bumpFromAppJson .ios json =
      .error ("expo.ios.buildNumber has non-numeric value \"" ++ jsToString v ++ "\"") := by
  cases hj1 : json.lookupField "expo" with
  | none => simp [lookupPath, hj1] at h
  | some e =>
    simp only [lookupPath, hj1] at h
    cases e with
    | obj ef =>
      cases hj2 : lookupAssoc ef "ios" with
      | none => simp [lookupPath, Json.lookupField, hj2] at h
      | some io =>
        simp only [lookupPath, Json.lookupField, hj2] at h
        cases io with
        | obj iof =>
          cases hj3 : lookupAssoc iof "buildNumber" with
          | none => simp [lookupPath, Json.lookupField, hj3] at h
          | some v' =>
            simp only [lookupPath, Json.lookupField, hj3] at h
            have hv : v' = v := by simpa using h
            have H2 : (Json.obj ef).lookupField "ios" = some (Json.obj iof) := hj2
            have H3 : (Json.obj iof).lookupField "buildNumber" = some v := hv ▸ hj3
            simp only [bumpFromAppJson, nullishExpo, hj1, H2, H3, hn]
            rfl
        | null => simp [lookupPath, Json.lookupField] at h
        | bool b => simp [lookupPath, Json.lookupField] at h
        | num m => simp [lookupPath, Json.lookupField] at h
        | str s => simp [lookupPath, Json.lookupField] at h
        | arr xs => simp [lookupPath, Json.lookupField] at h
    | null => simp [lookupPath, Json.lookupField] at h
    | bool b => simp [lookupPath, Json.lookupField] at h
    | num m => simp [lookupPath, Json.lookupField] at h
    | str s => simp [lookupPath, Json.lookupField] at h
    | arr xs => simp [lookupPath, Json.lookupField] at h

theorem bumpFromAppJson_android_of_nan (json v : Json)
    (h : lookupPath json ["expo", "android", "versionCode"] = some v)
    (hn : jsNumber v = none) :
    bumpFromAppJson .android json =
      .error ("expo.android.versionCode has non-numeric value \"" ++ jsToString v ++ "\"") := by
  cases hj1 : json.lookupField "expo" with
  | none => simp [lookupPath, hj1] at h
  | some e =>
    simp only [lookupPath, hj1] at h
    cases e with
    | obj ef =>
      cases hj2 : lookupAssoc ef "android" with
      | none => simp [lookupPath, Json.lookupField, hj2] at h
      | some io =>
        simp only [lookupPath, Json.lookupField, hj2] at h
        cases io with
        | obj iof =>
          cases hj3 : lookupAssoc iof "versionCode" with
          | none => simp [lookupPath, Json.lookupField, hj3] at h
          | some v' =>
            simp only [lookupPath, Json.lookupField, hj3] at h
            have hv : v' = v := by simpa using h
            have H2 : (Json.obj ef).lookupField "android" = some (Json.obj iof) := hj2
            have H3 : (Json.obj iof).lookupField "versionCode" = some v := hv ▸ hj3
            simp only [bumpFromAppJson, nullishExpo, hj1, H2, H3, hn]
            rfl
        | null => simp [lookupPath, Json.lookupField] at h
        | bool b => simp [lookupPath, Json.lookupField] at h
        | num m => simp [lookupPath, Json.lookupField] at h
        | str s => simp [lookupPath, Json.lookupField] at h
        | arr xs => simp [lookupPath, Json.lookupField] at h
    | null => simp [lookupPath, Json.lookupField] at h
    | bool b => simp [lookupPath, Json.lookupField] at h
    | num m => simp [lookupPath, Json.lookupField] at h
    | str s => simp [lookupPath, Json.lookupField] at h
    | arr xs => simp [lookupPath, Json.lookupField] at h

theorem bumpFromAppJson_ios_of_absent (json : Json)
    (h1 : lookupPath json ["expo", "ios", "buildNumber"] = none)
    (h2 : lookupPath json ["expo", "buildNumber"] = none) :
    bumpFromAppJson .ios json =
      .ok (setNestedKeys json ["expo", "ios", "buildNumber"] (.str (jsIntToString 1)),
        { previousValue := 0, newValue := 1, field := "expo.ios.buildNumber",
          version := none }) := by
  cases hj1 : json.lookupField "expo" with
  | none => simp only [bumpFromAppJson, nullishExpo, hj1, setNestedValue]; rfl
  | some e =>
    cases e with
    | obj ef =>
      cases hj2 : lookupAssoc ef "ios" with
      | none =>
        cases hj4 : lookupAssoc ef "buildNumber" with
        | some w =>
          simp only [lookupPath, hj1] at h2
          simp [Json.lookupField, hj4] at h2
        | none =>
          have H2 : (Json.obj ef).lookupField "ios" = none := hj2
          have H4 : (Json.obj ef).lookupField "buildNumber" = none := hj4
          simp only [bumpFromAppJson, nullishExpo, hj1, H2, H4, setNestedValue]
          rfl
      | some io =>
        have H2 : (Json.obj ef).lookupField "ios" = some io := hj2
        cases io with
        | obj iof =>
          cases hj3 : lookupAssoc iof "buildNumber" with
          | some v =>
            simp only [lookupPath, hj1] at h1
            simp [Json.lookupField, hj2, hj3] at h1
          | none =>
            have H3 : (Json.obj iof).lookupField "buildNumber" = none := hj3
            cases hj4 : lookupAssoc ef "buildNumber" with
            | some w =>
          simp only [lookupPath, hj1] at h2
          simp [Json.lookupField, hj4] at h2
            | none =>
              have H4 : (Json.obj ef).lookupField "buildNumber" = none := hj4
              simp only [bumpFromAppJson, nullishExpo, hj1, H2, H3, H4, setNestedValue]
              rfl
        | null =>
          cases hj4 : lookupAssoc ef "buildNumber" with
          | some w =>
          simp only [lookupPath, hj1] at h2
          simp [Json.lookupField, hj4] at h2
          | none =>
            have H4 : (Json.obj ef).lookupField "buildNumber" = none := hj4
            simp only [bumpFromAppJson, nullishExpo, hj1, H2, H4, setNestedValue]
            rfl
        | bool b =>
          cases hj4 : lookupAssoc ef "buildNumber" with
          | some w =>
          simp only [lookupPath, hj1] at h2
          simp [Json.lookupField, hj4] at h2
          | none =>
            have H4 : (Json.obj ef).lookupField "buildNumber" = none := hj4
            simp only [bumpFromAppJson, nullishExpo, hj1, H2, H4, setNestedValue]
            rfl
        | num m =>
          cases hj4 : lookupAssoc ef "buildNumber" with
          | some w =>
          simp only [lookupPath, hj1] at h2
          simp [Json.lookupField, hj4] at h2
          | none =>
            have H4 : (Json.obj ef).lookupField "buildNumber" = none := hj4
            simp only [bumpFromAppJson, nullishExpo, hj1, H2, H4, setNestedValue]
            rfl
        | str s =>
          cases hj4 : lookupAssoc ef "buildNumber" with
          | some w =>
          simp only [lookupPath, hj1] at h2
          simp [Json.lookupField, hj4] at h2
          | none =>
            have H4 : (Json.obj ef).lookupField "buildNumber" = none := hj4
            simp only [bumpFromAppJson, nullishExpo, hj1, H2, H4, setNestedValue]
            rfl
        | arr xs =>
          cases hj4 : lookupAssoc ef "buildNumber" with
          | some w =>
          simp only [lookupPath, hj1] at h2
          simp [Json.lookupField, hj4] at h2
          | none =>
            have H4 : (Json.obj ef).lookupField "buildNumber" = none := hj4
            simp only [bumpFromAppJson, nullishExpo, hj1, H2, H4, setNestedValue]
            rfl
    | null => simp only [bumpFromAppJson, nullishExpo, hj1, setNestedValue]; rfl
    | bool b => simp only [bumpFromAppJson, nullishExpo, hj1, setNestedValue]; rfl
    | num m => simp only [bumpFromAppJson, nullishExpo, hj1, setNestedValue]; rfl
    | str s => simp only [bumpFromAppJson, nullishExpo, hj1, setNestedValue]; rfl
    | arr xs => simp only [bumpFromAppJson, nullishExpo, hj1, setNestedValue]; rfl

theorem bumpFromAppJson_android_of_absent (json : Json)
    (h1 : lookupPath json ["expo", "android", "versionCode"] = none)
    (h2 : lookupPath json ["expo", "versionCode"] = none) :
    bumpFromAppJson .android json =
      .ok (setNestedKeys json ["expo", "android", "versionCode"] (.num 1),
        { previousValue := 0, newValue := 1, field := "expo.android.versionCode",
          version := none }) := by
  cases hj1 : json.lookupField "expo" with
  | none => simp only [bumpFromAppJson, nullishExpo, hj1, setNestedValue]; rfl
  | some e =>
    cases e with
    | obj ef =>
      cases hj2 : lookupAssoc ef "android" with
      | none =>
        cases hj4 : lookupAssoc ef "versionCode" with
        | some w =>
          simp only [lookupPath, hj1] at h2
          simp [Json.lookupField, hj4] at h2
        | none =>
          have H2 : (Json.obj ef).lookupField "android" = none := hj2
          have H4 : (Json.obj ef).lookupField "versionCode" = none := hj4
          simp only [bumpFromAppJson, nullishExpo, hj1, H2, H4, setNestedValue]
          rfl
      | some io =>
        have H2 : (Json.obj ef).lookupField "android" = some io := hj2
        cases io with
        | obj iof =>
          cases hj3 : lookupAssoc iof "versionCode" with
          | some v =>
            simp only [lookupPath, hj1] at h1
            simp [Json.lookupField, hj2, hj3] at h1
          | none =>
            have H3 : (Json.obj iof).lookupField "versionCode" = none := hj3
            cases hj4 : lookupAssoc ef "versionCode" with
            | some w =>
          simp only [lookupPath, hj1] at h2
          simp [Json.lookupField, hj4] at h2
            | none =>
              have H4 : (Json.obj ef).lookupField "versionCode" = none := hj4
              simp only [bumpFromAppJson, nullishExpo, hj1, H2, H3, H4, setNestedValue]
              rfl
        | null =>
          cases hj4 : lookupAssoc ef "versionCode" with
          | some w =>
          simp only [lookupPath, hj1] at h2
          simp [Json.lookupField, hj4] at h2
          | none =>
            have H4 : (Json.obj ef).lookupField "versionCode" = none := hj4
            simp only [bumpFromAppJson, nullishExpo, hj1, H2, H4, setNestedValue]
            rfl
        | bool b =>
          cases hj4 : lookupAssoc ef "versionCode" with
          | some w =>
          simp only [lookupPath, hj1] at h2
          simp [Json.lookupField, hj4] at h2
          | none =>
            have H4 : (Json.obj ef).lookupField "versionCode" = none := hj4
            simp only [bumpFromAppJson, nullishExpo, hj1, H2, H4, setNestedValue]
            rfl
        | num m =>
          cases hj4 : lookupAssoc ef "versionCode" with
          | some w =>
          simp only [lookupPath, hj1] at h2
          simp [Json.lookupField, hj4] at h2
          | none =>
            have H4 : (Json.obj ef).lookupField "versionCode" = none := hj4
            simp only [bumpFromAppJson, nullishExpo, hj1, H2, H4, setNestedValue]
            rfl
        | str s =>
          cases hj4 : lookupAssoc ef "versionCode" with
          | some w =>
          simp only [lookupPath, hj1] at h2
          simp [Json.lookupField, hj4] at h2
          | none =>
            have H4 : (Json.obj ef).lookupField "versionCode" = none := hj4
            simp only [bumpFromAppJson, nullishExpo, hj1, H2, H4, setNestedValue]
            rfl
        | arr xs =>
          cases hj4 : lookupAssoc ef "versionCode" with
          | some w =>
          simp only [lookupPath, hj1] at h2
          simp [Json.lookupField, hj4] at h2
          | none =>
            have H4 : (Json.obj ef).lookupField "versionCode" = none := hj4
            simp only [bumpFromAppJson, nullishExpo, hj1, H2, H4, setNestedValue]
            rfl
    | null => simp only [bumpFromAppJson, nullishExpo, hj1, setNestedValue]; rfl
    | bool b => simp only [bumpFromAppJson, nullishExpo, hj1, setNestedValue]; rfl
    | num m => simp only [bumpFromAppJson, nullishExpo, hj1, setNestedValue]; rfl
    | str s => simp only [bumpFromAppJson, nullishExpo, hj1, setNestedValue]; rfl
    | arr xs => simp only [bumpFromAppJson, nullishExpo, hj1, setNestedValue]; rfl

-- ===========================================================================
-- Claim theorems
-- ===========================================================================

/-- C1: the claim asserts that `parseConfigFile` rejects a config whose
profile configures neither platform. Evaluating the code at
`{"build":{"p":{}}}` shows the opposite: `BuildProfileSchema` carries no
at-least-one-platform refinement (despite the schema comment announcing
that invariant), so validation succeeds and the platformless profile is
returned as valid. -/
theorem c1_parseConfigFile_accepts_platformless_profile :
    parseConfigFile "app-build.json" (some (.obj [("build", .obj [("p", .obj [])])])) =
      .ok { build := some [("p", { ios := none, android := none })],
            submit := none, signing := none, updates := none, version := none } := rfl

/-- C7: the git-tag strategy's new-version computation — patch bumped
when the previous major is positive, major forced to 1 with minor/patch
carried through when the previous major is 0, the all-zero triple
mapped to 1.0.0, and the packed build number equal to
`major*10000 + minor*100 + patch` of the new version. -/
theorem c7_gitTag_version_computation (M m p : Nat) :
    (0 < M → gitTagNewVersion { major := M, minor := m, patch := p } =
      { major := M, minor := m, patch := p + 1 }) ∧
    (M = 0 → ¬(m = 0 ∧ p = 0) → gitTagNewVersion { major := M, minor := m, patch := p } =
      { major := 1, minor := m, patch := p }) ∧
    gitTagNewVersion { major := 0, minor := 0, patch := 0 } =
      { major := 1, minor := 0, patch := 0 } ∧
    packedBuildNumber (gitTagNewVersion { major := M, minor := m, patch := p }) =
      (gitTagNewVersion { major := M, minor := m, patch := p }).major * 10000 +
        (gitTagNewVersion { major := M, minor := m, patch := p }).minor * 100 +
        (gitTagNewVersion { major := M, minor := m, patch := p }).patch := by
  refine ⟨?_, ?_, by decide, rfl⟩
  · intro hM
    have hM0 : ¬ M = 0 := by omega
    simp [gitTagNewVersion, hM0]
  · intro hM hmp
    subst hM
    have : ¬(0 = 0 ∧ m = 0 ∧ p = 0) := by
      intro hc
      exact hmp ⟨hc.2.1, hc.2.2⟩
    simp only [gitTagNewVersion, if_pos rfl, if_neg this]
    simp
    omega

/-- C7 witness: the three regimes evaluated at 2.3.4, 0.3.4 and 0.0.0. -/
theorem c7_gitTag_version_computation_witness :
    gitTagNewVersion { major := 2, minor := 3, patch := 4 } =
      { major := 2, minor := 3, patch := 5 } ∧
    gitTagNewVersion { major := 0, minor := 3, patch := 4 } =
      { major := 1, minor := 3, patch := 4 } ∧
    gitTagNewVersion { major := 0, minor := 0, patch := 0 } =
      { major := 1, minor := 0, patch := 0 } :=
  ⟨(c7_gitTag_version_computation 2 3 4).1 (by decide),
    (c7_gitTag_version_computation 0 3 4).2.1 rfl (by decide),
    (c7_gitTag_version_computation 0 0 0).2.2.1⟩

/-- C9: `restoreFingerprintCache` is total (returns a `Bool`), maps a
rejected `restoreCache` call for the key `native-build-{platform}-{hash}`
to `false` exactly like a miss, and returns `true` only when that call
reported a (truthy) hit. -/
theorem c9_restoreFingerprintCache_swallows_errors
    (restoreCache : List String → String → RestoreOutcome)
    (markerDir platform hash : String) :
    (∀ e, restoreCache [markerDir] (cacheKey platform hash) = .err e →
      restoreFingerprintCache restoreCache markerDir platform hash = false) ∧
    (restoreFingerprintCache restoreCache markerDir platform hash = true ↔
      ∃ s, restoreCache [markerDir] (cacheKey platform hash) = .ok (some s) ∧
        s.isEmpty = false) := by
  constructor
  · intro e he
    simp [restoreFingerprintCache, he]
  · constructor
    · intro ht
      cases hr : restoreCache [markerDir] (cacheKey platform hash) with
      | ok hit =>
        cases hit with
        | some s =>
          refine ⟨s, rfl, ?_⟩
          by_contra hempty
          simp only [Bool.not_eq_false] at hempty
          simp [restoreFingerprintCache, hr, hempty] at ht
        | none => simp [restoreFingerprintCache, hr] at ht
      | err e => simp [restoreFingerprintCache, hr] at ht
    · rintro ⟨s, hs, hne⟩
      simp [restoreFingerprintCache, hs, hne]

/-- C9 witness: a rejecting store yields `false`; a store hitting the
exact key yields `true`. -/
theorem c9_restoreFingerprintCache_swallows_errors_witness :
    restoreFingerprintCache (fun _ _ => .err "cache service unavailable") "/tmp/m" "ios" "h1" =
      false ∧
    restoreFingerprintCache (fun _ k => .ok (some k)) "/tmp/m" "ios" "h1" = true :=
  ⟨(c9_restoreFingerprintCache_swallows_errors (fun _ _ => .err "cache service unavailable")
      "/tmp/m" "ios" "h1").1 "cache service unavailable" rfl,
    (c9_restoreFingerprintCache_swallows_errors (fun _ k => .ok (some k))
      "/tmp/m" "ios" "h1").2.mpr ⟨"native-build-ios-h1", rfl, rfl⟩⟩

/-- C10: on the empty config produced by `parseConfigFile` for a missing
file, `getProfileConfig` returns `undefined` (`none`) for every profile
name and platform, raising neither failure. -/
theorem c10_getProfileConfig_empty_config (path name : String) (platform : Platform) :
    parseConfigFile path none = .ok emptyAppBuildConfig ∧
    getProfileConfig emptyAppBuildConfig name platform = .ok none :=
  ⟨rfl, rfl⟩

/-- C8: `getProfileConfig` returns the exact stored platform object for
an existing profile configuring the requested platform; for an absent
profile name it throws naming the profile and enumerating every
available profile name; for an existing profile lacking the platform it
throws naming the configured platforms, or "none" when the profile
configures neither. -/
theorem c8_getProfileConfig_spec :
    (∀ (config : AppBuildConfig) (bs : List (String × BuildProfile)) (name : String)
        (platform : Platform) (prof : BuildProfile) (pc : PlatformBuildConfig),
      config.build = some bs → lookupAssoc bs name = some prof →
      prof.platformField platform = some pc →
      getProfileConfig config name platform = .ok (some pc)) ∧
    (∀ (config : AppBuildConfig) (bs : List (String × BuildProfile)) (name : String)
        (platform : Platform),
      config.build = some bs → lookupAssoc bs name = none →
      getProfileConfig config name platform =
        .error ("Build profile \"" ++ name ++ "\" not found. Available profiles: "
          ++ joinSep ", " (bs.map Prod.fst))) ∧
    (∀ (config : AppBuildConfig) (bs : List (String × BuildProfile)) (name : String)
        (platform : Platform) (prof : BuildProfile),
      config.build = some bs → lookupAssoc bs name = some prof →
      prof.platformField platform = none →
      getProfileConfig config name platform =
        .error ("Platform \"" ++ platform.toStr ++ "\" is not configured in profile \""
          ++ name ++ "\". Configured platforms: "
          ++ (if (joinSep ", " ((if prof.ios.isSome then ["ios"] else [])
                ++ (if prof.android.isSome then ["android"] else []))).isEmpty then "none"
              else joinSep ", " ((if prof.ios.isSome then ["ios"] else [])
                ++ (if prof.android.isSome then ["android"] else []))))) := by
  refine ⟨?_, ?_, ?_⟩
  · intro config bs name platform prof pc hb hl hp
    simp [getProfileConfig, hb, hl, hp]
  · intro config bs name platform hb hl
    simp [getProfileConfig, hb, hl]
  · intro config bs name platform prof hb hl hp
    simp [getProfileConfig, hb, hl, hp]

/-- A sample parsed config with an iOS-only production profile, an
Android-only profile and a platformless profile, used as witness
material. -/
def sampleConfig : AppBuildConfig :=
  { build := some
      [("production",
        { ios :=
            some { scheme := "MyApp", buildConfiguration := "Release", exportMethod := .appStore }
          android := some { buildType := .release, aab := some true } }),
       ("ios-only",
        { ios :=
            some { scheme := "MyApp", buildConfiguration := "Debug", exportMethod := .development }
          android := none }),
       ("empty", { ios := none, android := none })],
    submit := none, signing := none, updates := none, version := none }

/-- C8 witness: the three behaviours evaluated on `sampleConfig` — exact
stored object for production/ios, profile-not-found for "staging"
listing the three profiles, and platform-not-configured reporting
configured "ios" (and "none" for the platformless profile). -/
theorem c8_getProfileConfig_spec_witness :
    getProfileConfig sampleConfig "production" .ios =
      .ok (some
        (.ios { scheme := "MyApp", buildConfiguration := "Release", exportMethod := .appStore })) ∧
    getProfileConfig sampleConfig "staging" .ios =
      .error "Build profile \"staging\" not found. Available profiles: production, ios-only, empty" ∧
    getProfileConfig sampleConfig "ios-only" .android =
      .error "Platform \"android\" is not configured in profile \"ios-only\". Configured platforms: ios" ∧
    getProfileConfig sampleConfig "empty" .ios =
      .error "Platform \"ios\" is not configured in profile \"empty\". Configured platforms: none" := by
  refine ⟨?_, ?_, ?_, ?_⟩
  · exact c8_getProfileConfig_spec.1 sampleConfig _ "production" .ios _ _ rfl rfl rfl
  · exact c8_getProfileConfig_spec.2.1 sampleConfig _ "staging" .ios rfl rfl
  · exact c8_getProfileConfig_spec.2.2 sampleConfig _ "ios-only" .android _ rfl rfl rfl
  · exact c8_getProfileConfig_spec.2.2 sampleConfig _ "empty" .ios _ rfl rfl rfl

/-- C2: whenever `mergeActionInputs` succeeds, the resolved config has
`ios` populated iff the platform input is `"ios"` and `android`
populated iff it is `"android"` — exactly one of the two, never both
and never neither. -/
theorem c2_merge_platform_exclusivity (config : AppBuildConfig) (inputs : ActionInputs)
    (res : ResolvedConfig) (h : mergeActionInputs config inputs = .ok res) :
    (res.ios.isSome = true ↔ inputs.platform = Platform.ios) ∧
    (res.android.isSome = true ↔ inputs.platform = Platform.android) ∧
    ((res.ios.isSome = true ∧ res.android = none) ∨
      (res.android.isSome = true ∧ res.ios = none)) := by
  cases hp : inputs.platform with
  | ios =>
    simp only [mergeActionInputs, hp] at h
    cases hg : getProfileConfig config
        (if inputs.profile.isEmpty then DEFAULT_PROFILE else inputs.profile) Platform.ios with
    | error e => rw [hg] at h; simp at h
    | ok pc =>
      rw [hg] at h
      simp only [Except.ok.injEq] at h
      subst h
      simp
  | android =>
    simp only [mergeActionInputs, hp] at h
    cases hg : getProfileConfig config
        (if inputs.profile.isEmpty then DEFAULT_PROFILE else inputs.profile) Platform.android with
    | error e => rw [hg] at h; simp at h
    | ok pc =>
      rw [hg] at h
      simp only [Except.ok.injEq] at h
      subst h
      simp

/-- Empty credential inputs. -/
def noCredentials : Credentials :=
  { iosCertificateP12 := none, iosCertificatePassword := none, iosProvisioningProfile := none,
    iosExtensionProfiles := none, matchPassword := none, matchGitPrivateKey := none,
    ascApiKeyId := none, ascApiIssuerId := none, ascApiKeyP8 := none, androidKeystore := none,
    androidKeystorePassword := none, androidKeyAlias := none, androidKeyPassword := none,
    googlePlayServiceAccount := none }

/-- The spec's concrete merge scenario: `platform="ios"`,
`profile="production"`, no overrides. -/
def specInputsIos : ActionInputs :=
  { platform := .ios, profile := "production", submit := false, ota := false,
    versionBump := true, cache := true, fingerprint := true, skipPrebuild := false,
    prebuildClean := false, nodeVersion := "", fastlaneVersion := "",
    xcodeVersion := none, versionStrategy := none, versionGitTagPattern := none,
    iosScheme := none, iosBuildConfiguration := none, credentials := noCredentials }

/-- The spec's config file
`{"build":{"production":{"ios":{"scheme":"MyApp","buildConfiguration":"Release","exportMethod":"app-store"}}}}`
as parsed. -/
def specConfig : AppBuildConfig :=
  { build := some
      [("production",
        { ios :=
            some { scheme := "MyApp", buildConfiguration := "Release", exportMethod := .appStore }
          android := none })],
    submit := none, signing := none, updates := none, version := none }

/-- The `ResolvedConfig` produced by the spec scenario. -/
def specResolved : ResolvedConfig :=
  { platform := .ios, profile := "production",
    ios :=
      some { scheme := some "MyApp", buildConfiguration := "Release", exportMethod := .appStore }
    android := none,
    submit := false, ota := false, versionBump := true, cache := true, fingerprint := true,
    skipPrebuild := false, prebuildClean := false,
    nodeVersion := "20", fastlaneVersion := "latest", xcodeVersion := none,
    submitConfig := none, signingConfig := none, updatesConfig := none, versionConfig := none,
    versionStrategy := none, versionGitTagPattern := none, credentials := noCredentials }

/-- C2 witness: the spec scenario merges to `specResolved`, whose `ios`
is the stored profile object and whose `android` is `undefined`. -/
theorem c2_merge_platform_exclusivity_witness :
    mergeActionInputs specConfig specInputsIos = .ok specResolved ∧
    specResolved.ios =
      some { scheme := some "MyApp", buildConfiguration := "Release"
             exportMethod := ExportMethod.appStore } ∧
    specResolved.android = none ∧
    (specResolved.ios.isSome = true ↔ specInputsIos.platform = Platform.ios) :=
  ⟨rfl, rfl, rfl,
    (c2_merge_platform_exclusivity specConfig specInputsIos specResolved rfl).1⟩

/-- C3: on the empty config (no config file), `mergeActionInputs` never
fails, synthesizes Android `buildType = "release"` with `aab = true` and
iOS `exportMethod = "app-store"` (and `buildConfiguration = "Release"`
when no action input overrides it), and defaults the profile name to
`"production"` when the profile input is empty. -/
theorem c3_empty_config_defaults (inputs : ActionInputs) :
    (∃ r, mergeActionInputs emptyAppBuildConfig inputs = .ok r) ∧
    (∀ res, mergeActionInputs emptyAppBuildConfig inputs = .ok res →
      (inputs.platform = Platform.android →
        res.android = some { buildType := .release, aab := some true }) ∧
      (inputs.platform = Platform.ios →
        res.ios.map (fun c => c.exportMethod) = some ExportMethod.appStore ∧
        (strTruthy inputs.iosBuildConfiguration = false →
          res.ios.map (fun c => c.buildConfiguration) = some "Release")) ∧
      (inputs.profile = "" → res.profile = "production")) := by
  constructor
  · cases hp : inputs.platform with
    | ios =>
      simp only [mergeActionInputs, hp, getProfileConfig, emptyAppBuildConfig]
      exact ⟨_, rfl⟩
    | android =>
      simp only [mergeActionInputs, hp, getProfileConfig, emptyAppBuildConfig]
      exact ⟨_, rfl⟩
  · intro res h
    cases hp : inputs.platform with
    | ios =>
      simp only [mergeActionInputs, hp, getProfileConfig, emptyAppBuildConfig,
        Except.ok.injEq] at h
      subst h
      refine ⟨?_, ?_, ?_⟩
      · intro hc
        exact absurd hc (by decide)
      · intro _
        constructor
        · cases hbc : inputs.iosBuildConfiguration with
          | none =>
            cases hsch : strTruthy inputs.iosScheme <;>
              simp [hsch, hbc, DEFAULT_IOS_EXPORT_METHOD]
          | some s =>
            cases hse : s.isEmpty <;> cases hsch : strTruthy inputs.iosScheme <;>
              simp [hsch, hbc, hse, DEFAULT_IOS_EXPORT_METHOD]
        · intro htr
          cases hbc : inputs.iosBuildConfiguration with
          | none =>
            cases hsch : strTruthy inputs.iosScheme <;>
              simp [hsch, hbc, DEFAULT_IOS_BUILD_CONFIGURATION]
          | some s =>
            rw [hbc] at htr
            have hse : s.isEmpty = true := by
              simpa [strTruthy] using htr
            cases hsch : strTruthy inputs.iosScheme <;>
              simp [hsch, hbc, hse, DEFAULT_IOS_BUILD_CONFIGURATION]
      · intro hprof
        simp [hprof, DEFAULT_PROFILE]
        rfl
    | android =>
      simp only [mergeActionInputs, hp, getProfileConfig, emptyAppBuildConfig,
        Except.ok.injEq] at h
      subst h
      refine ⟨?_, ?_, ?_⟩
      · intro _
        simp [DEFAULT_ANDROID_BUILD_TYPE, DEFAULT_ANDROID_AAB]
      · intro hc
        exact absurd hc (by decide)
      · intro hprof
        simp [hprof, DEFAULT_PROFILE]
        rfl

/-- Minimal inputs for the no-config-file Android scenario. -/
def minimalInputsAndroid : ActionInputs :=
  { platform := .android, profile := "", submit := false, ota := false,
    versionBump := false, cache := false, fingerprint := false, skipPrebuild := false,
    prebuildClean := false, nodeVersion := "", fastlaneVersion := "",
    xcodeVersion := none, versionStrategy := none, versionGitTagPattern := none,
    iosScheme := none, iosBuildConfiguration := none, credentials := noCredentials }

/-- C3 witness: on the empty config with empty profile input, the merge
succeeds and resolves `buildType = release`, `aab = true`,
`profile = "production"`. -/
theorem c3_empty_config_defaults_witness :
    (∃ r, mergeActionInputs emptyAppBuildConfig minimalInputsAndroid = .ok r) ∧
    (∀ res, mergeActionInputs emptyAppBuildConfig minimalInputsAndroid = .ok res →
      res.android = some { buildType := .release, aab := some true } ∧
      res.profile = "production") :=
  ⟨(c3_empty_config_defaults minimalInputsAndroid).1,
    fun res h =>
      ⟨((c3_empty_config_defaults minimalInputsAndroid).2 res h).1 rfl,
        ((c3_empty_config_defaults minimalInputsAndroid).2 res h).2.2 rfl⟩⟩

/-- C4: for a config whose selected profile configures iOS, the resolved
scheme and build configuration follow the input-over-file precedence: a
truthy (non-empty) action input wins, otherwise the config-file
profile's value is used; the export method always comes from the file
profile (hard defaults only apply when the profile provides nothing,
i.e. on the empty config — see the C3 theorem). -/
theorem c4_merge_ios_precedence (config : AppBuildConfig) (inputs : ActionInputs)
    (bs : List (String × BuildProfile)) (prof : BuildProfile) (pc : IosBuildConfig)
    (hb : config.build = some bs)
    (hl : lookupAssoc bs (if inputs.profile.isEmpty then DEFAULT_PROFILE else inputs.profile) =
      some prof)
    (hios : prof.ios = some pc)
    (hplat : inputs.platform = Platform.ios) :
    (∃ r, mergeActionInputs config inputs = .ok r) ∧
    (∀ res, mergeActionInputs config inputs = .ok res →
      (strTruthy inputs.iosScheme = true →
        res.ios.map (fun c => c.scheme) = some inputs.iosScheme) ∧
      (strTruthy inputs.iosScheme = false →
        res.ios.map (fun c => c.scheme) = some (some pc.scheme)) ∧
      (∀ s, inputs.iosBuildConfiguration = some s → s.isEmpty = false →
        res.ios.map (fun c => c.buildConfiguration) = some s) ∧
      (strTruthy inputs.iosBuildConfiguration = false →
        res.ios.map (fun c => c.buildConfiguration) = some pc.buildConfiguration) ∧
      res.ios.map (fun c => c.exportMethod) = some pc.exportMethod) := by
  have hg : getProfileConfig config
      (if inputs.profile.isEmpty then DEFAULT_PROFILE else inputs.profile) Platform.ios =
      .ok (some (.ios pc)) := by
    simp [getProfileConfig, hb, hl, BuildProfile.platformField, hios]
  constructor
  · simp only [mergeActionInputs, hplat, hg]
    exact ⟨_, rfl⟩
  · intro res h
    simp only [mergeActionInputs, hplat, hg, Except.ok.injEq] at h
    subst h
    refine ⟨?_, ?_, ?_, ?_, ?_⟩
    · intro htr
      cases hbc : inputs.iosBuildConfiguration with
      | none => simp [htr, hbc]
      | some s => cases hse : s.isEmpty <;> simp [htr, hbc, hse]
    · intro htr
      cases hbc : inputs.iosBuildConfiguration with
      | none => simp [htr, hbc]
      | some s => cases hse : s.isEmpty <;> simp [htr, hbc, hse]
    · intro s hbc hse
      cases hsch : strTruthy inputs.iosScheme <;> simp [hsch, hbc, hse]
    · intro htr
      cases hbc : inputs.iosBuildConfiguration with
      | none =>
        cases hsch : strTruthy inputs.iosScheme <;> simp [hsch, hbc]
      | some s =>
        rw [hbc] at htr
        have hse : s.isEmpty = true := by simpa [strTruthy] using htr
        cases hsch : strTruthy inputs.iosScheme <;> simp [hsch, hbc, hse]
    · cases hbc : inputs.iosBuildConfiguration with
      | none =>
        cases hsch : strTruthy inputs.iosScheme <;> simp [hsch, hbc]
      | some s =>
        cases hse : s.isEmpty <;> cases hsch : strTruthy inputs.iosScheme <;>
          simp [hsch, hbc, hse]

/-- Inputs overriding the scheme but not the build configuration. -/
def overrideInputsIos : ActionInputs :=
  { platform := .ios, profile := "", submit := false, ota := false,
    versionBump := false, cache := false, fingerprint := false, skipPrebuild := false,
    prebuildClean := false, nodeVersion := "", fastlaneVersion := "",
    xcodeVersion := none, versionStrategy := none, versionGitTagPattern := none,
    iosScheme := some "OverrideScheme", iosBuildConfiguration := none,
    credentials := noCredentials }

/-- C4 witness: on `specConfig` (profile `production` configures iOS with
scheme `MyApp` / configuration `Release`), a supplied scheme input wins
while the absent build-configuration input falls back to the file. -/
theorem c4_merge_ios_precedence_witness :
    (∃ r, mergeActionInputs specConfig overrideInputsIos = .ok r) ∧
    (∀ res, mergeActionInputs specConfig overrideInputsIos = .ok res →
      res.ios.map (fun c => c.scheme) = some (some "OverrideScheme") ∧
      res.ios.map (fun c => c.buildConfiguration) = some "Release" ∧
      res.ios.map (fun c => c.exportMethod) = some ExportMethod.appStore) := by
  have base := c4_merge_ios_precedence specConfig overrideInputsIos
    [("production",
      { ios :=
          some { scheme := "MyApp", buildConfiguration := "Release", exportMethod := .appStore }
        android := none })]
    { ios := some { scheme := "MyApp", buildConfiguration := "Release", exportMethod := .appStore }
      android := none }
    { scheme := "MyApp", buildConfiguration := "Release", exportMethod := .appStore }
    rfl rfl rfl rfl
  refine ⟨base.1, ?_⟩
  intro res h
  obtain ⟨h1, _, _, h4, h5⟩ := base.2 res h
  exact ⟨h1 rfl, h4 rfl, h5⟩

/-- C5: when the platform build-number field holds a numeric value `n`,
one app-json bump run succeeds with `previousValue = n`,
`newValue = n + 1`, re-reading the field in the written file yields
exactly `n + 1` — string-encoded for iOS, number-encoded for Android —
every key on a diverging path is unchanged, and a second run yields
`n + 2`: two consecutive values, never the same one twice. -/
theorem c5_appjson_roundtrip_increment :
    (∀ (json v : Json) (n : Int),
      lookupPath json ["expo", "ios", "buildNumber"] = some v →
      jsNumber v = some n →
      ∃ json1,
        bumpFromAppJson .ios json =
          .ok (json1, { previousValue := n, newValue := n + 1,
                        field := "expo.ios.buildNumber", version := none }) ∧
        lookupPath json1 ["expo", "ios", "buildNumber"] =
          some (.str (jsIntToString (n + 1))) ∧
        (∀ q, pathsDiverge q ["expo", "ios", "buildNumber"] = true →
          lookupPath json1 q = lookupPath json q) ∧
        ∃ json2,
          bumpFromAppJson .ios json1 =
            .ok (json2, { previousValue := n + 1, newValue := n + 2,
                          field := "expo.ios.buildNumber", version := none }) ∧
          lookupPath json2 ["expo", "ios", "buildNumber"] =
            some (.str (jsIntToString (n + 2)))) ∧
    (∀ (json v : Json) (n : Int),
      lookupPath json ["expo", "android", "versionCode"] = some v →
      jsNumber v = some n →
      ∃ json1,
        bumpFromAppJson .android json =
          .ok (json1, { previousValue := n, newValue := n + 1,
                        field := "expo.android.versionCode", version := none }) ∧
        lookupPath json1 ["expo", "android", "versionCode"] = some (.num (n + 1)) ∧
        (∀ q, pathsDiverge q ["expo", "android", "versionCode"] = true →
          lookupPath json1 q = lookupPath json q) ∧
        ∃ json2,
          bumpFromAppJson .android json1 =
            .ok (json2, { previousValue := n + 1, newValue := n + 2,
                          field := "expo.android.versionCode", version := none }) ∧
          lookupPath json2 ["expo", "android", "versionCode"] = some (.num (n + 2))) := by
  constructor
  · intro json v n h hn
    refine ⟨setNestedKeys json ["expo", "ios", "buildNumber"] (.str (jsIntToString (n + 1))),
      bumpFromAppJson_ios_of_present json v n h hn, ?_, ?_, ?_⟩
    · exact lookupPath_setNestedKeys_self _ json _ v (by simp) h
    · intro q hq
      exact lookupPath_setNestedKeys_diverge q _ json _ v hq h
    · have hl1 : lookupPath
          (setNestedKeys json ["expo", "ios", "buildNumber"] (.str (jsIntToString (n + 1))))
          ["expo", "ios", "buildNumber"] = some (.str (jsIntToString (n + 1))) :=
        lookupPath_setNestedKeys_self _ json _ v (by simp) h
      have b2 := bumpFromAppJson_ios_of_present _ _ (n + 1) hl1 (jsNumber_jsIntToString (n + 1))
      rw [show n + 1 + 1 = n + 2 from by ring] at b2
      refine ⟨_, b2, ?_⟩
      exact lookupPath_setNestedKeys_self _ _ _ (.str (jsIntToString (n + 1))) (by simp) hl1
  · intro json v n h hn
    refine ⟨setNestedKeys json ["expo", "android", "versionCode"] (.num (n + 1)),
      bumpFromAppJson_android_of_present json v n h hn, ?_, ?_, ?_⟩
    · exact lookupPath_setNestedKeys_self _ json _ v (by simp) h
    · intro q hq
      exact lookupPath_setNestedKeys_diverge q _ json _ v hq h
    · have hl1 : lookupPath
          (setNestedKeys json ["expo", "android", "versionCode"] (.num (n + 1)))
          ["expo", "android", "versionCode"] = some (.num (n + 1)) :=
        lookupPath_setNestedKeys_self _ json _ v (by simp) h
      have hnum : jsNumber (.num (n + 1)) = some (n + 1) := rfl
      have b2 := bumpFromAppJson_android_of_present _ _ (n + 1) hl1 hnum
      rw [show n + 1 + 1 = n + 2 from by ring] at b2
      refine ⟨_, b2, ?_⟩
      exact lookupPath_setNestedKeys_self _ _ _ (.num (n + 1)) (by simp) hl1

/-- A sample app.json content with both platform fields and an unrelated
top-level key. -/
def c5File : Json :=
  .obj [("expo", .obj [("ios", .obj [("buildNumber", .str "41")]),
                       ("android", .obj [("versionCode", .num 7)])]),
        ("name", .str "x")]

/-- C5 witness: bumping `c5File` takes `"41"` to `"42"` (string) for iOS
and `7` to `8` (number) for Android, leaving the unrelated `name` key
unchanged. -/
theorem c5_appjson_roundtrip_increment_witness :
    (∃ json1, bumpFromAppJson .ios c5File =
        .ok (json1, { previousValue := 41, newValue := 42,
                      field := "expo.ios.buildNumber", version := none }) ∧
      lookupPath json1 ["expo", "ios", "buildNumber"] = some (.str (jsIntToString 42)) ∧
      lookupPath json1 ["name"] = lookupPath c5File ["name"]) ∧
    (∃ json1, bumpFromAppJson .android c5File =
        .ok (json1, { previousValue := 7, newValue := 8,
                      field := "expo.android.versionCode", version := none }) ∧
      lookupPath json1 ["expo", "android", "versionCode"] = some (.num 8)) := by
  constructor
  · obtain ⟨json1, hb, hl, hdiv, _⟩ :=
      c5_appjson_roundtrip_increment.1 c5File (.str "41") 41 rfl rfl
    exact ⟨json1, hb, hl, hdiv ["name"] rfl⟩
  · obtain ⟨json1, hb, hl, _, _⟩ :=
      c5_appjson_roundtrip_increment.2 c5File (.num 7) 7 rfl rfl
    exact ⟨json1, hb, hl⟩

/-- C6 counterexample: the claim says every present non-numeric value in
the platform build-number field makes the app-json strategy fail. The
code instead coerces with JavaScript `Number()`: the boolean `true`
(coerced to 1) and the empty string (coerced to 0) are present,
non-numeric values on which the strategy succeeds. -/
theorem c6_counterexample_nonnumeric_no_error :
    bumpFromAppJson .ios (.obj [("expo", .obj [("ios", .obj [("buildNumber", .bool true)])])]) =
      .ok (.obj [("expo", .obj [("ios", .obj [("buildNumber", .str "2")])])],
        { previousValue := 1, newValue := 2, field := "expo.ios.buildNumber",
          version := none }) ∧
    bumpFromAppJson .ios (.obj [("expo", .obj [("ios", .obj [("buildNumber", .str "")])])]) =
      .ok (.obj [("expo", .obj [("ios", .obj [("buildNumber", .str "1")])])],
        { previousValue := 0, newValue := 1, field := "expo.ios.buildNumber",
          version := none }) :=
  ⟨rfl, rfl⟩

/-- C6 (amended): with the platform build-number field present, the
app-json strategy fails precisely when JavaScript `Number()` coercion of
the value is NaN / non-finite (e.g. the string "abc"), and the error
names the exact dotted field path and the stringified raw value; values
that coerce (null, booleans, numeric strings, the empty string) do not
fail, and an absent field is treated as 0 and bumped to 1. -/
theorem c6_amended_nonnumeric_error :
    (∀ (json v : Json), lookupPath json ["expo", "ios", "buildNumber"] = some v →
      (jsNumber v = none →
        bumpFromAppJson .ios json =
          .error ("expo.ios.buildNumber has non-numeric value \"" ++ jsToString v ++ "\"")) ∧
      (∀ n, jsNumber v = some n → ∃ out, bumpFromAppJson .ios json = .ok out)) ∧
    (∀ (json v : Json), lookupPath json ["expo", "android", "versionCode"] = some v →
      (jsNumber v = none →
        bumpFromAppJson .android json =
          .error ("expo.android.versionCode has non-numeric value \"" ++ jsToString v ++ "\"")) ∧
      (∀ n, jsNumber v = some n → ∃ out, bumpFromAppJson .android json = .ok out)) ∧
    (∀ json : Json, lookupPath json ["expo", "ios", "buildNumber"] = none →
      lookupPath json ["expo", "buildNumber"] = none →
      ∃ j1, bumpFromAppJson .ios json =
        .ok (j1, { previousValue := 0, newValue := 1, field := "expo.ios.buildNumber",
                   version := none })) ∧
    (∀ json : Json, lookupPath json ["expo", "android", "versionCode"] = none →
      lookupPath json ["expo", "versionCode"] = none →
      ∃ j1, bumpFromAppJson .android json =
        .ok (j1, { previousValue := 0, newValue := 1, field := "expo.android.versionCode",
                   version := none })) := by
  refine ⟨?_, ?_, ?_, ?_⟩
  · intro json v h
    exact ⟨fun hnan => bumpFromAppJson_ios_of_nan json v h hnan,
      fun n hn => ⟨_, bumpFromAppJson_ios_of_present json v n h hn⟩⟩
  · intro json v h
    exact ⟨fun hnan => bumpFromAppJson_android_of_nan json v h hnan,
      fun n hn => ⟨_, bumpFromAppJson_android_of_present json v n h hn⟩⟩
  · intro json h1 h2
    exact ⟨_, bumpFromAppJson_ios_of_absent json h1 h2⟩
  · intro json h1 h2
    exact ⟨_, bumpFromAppJson_android_of_absent json h1 h2⟩

/-- C6 amended witness: the value "abc" fails with the field path and
raw value in the message; a config without the field bumps 0 to 1. -/
theorem c6_amended_nonnumeric_error_witness :
    bumpFromAppJson .ios (.obj [("expo", .obj [("ios", .obj [("buildNumber", .str "abc")])])]) =
      .error "expo.ios.buildNumber has non-numeric value \"abc\"" ∧
    (∃ j1, bumpFromAppJson .ios (.obj [("expo", .obj [])]) =
      .ok (j1, { previousValue := 0, newValue := 1, field := "expo.ios.buildNumber",
                 version := none })) :=
  ⟨(c6_amended_nonnumeric_error.1
      (.obj [("expo", .obj [("ios", .obj [("buildNumber", .str "abc")])])])
      (.str "abc") rfl).1 rfl,
    c6_amended_nonnumeric_error.2.2.1 (.obj [("expo", .obj [])]) rfl rfl⟩

/-- C10 witness: the empty config behaviour evaluated at the default
config path with profile "production" and platform ios. -/
theorem c10_getProfileConfig_empty_config_witness :
    parseConfigFile "./app-build.json" none = .ok emptyAppBuildConfig ∧
    getProfileConfig emptyAppBuildConfig "production" .ios = .ok none :=
  c10_getProfileConfig_empty_config "./app-build.json" "production" .ios
